import Mathlib

/- Shallow embedding of the osbuild-images manifest-compiler core:
   the imageType methods and option validation of
   src/internal/distro/rhel8/imagetype.go, the scos distro registry and
   image-type catalog from the same file, the scos package sets
   (src/pkg/distro/scos/package_sets.go), and the worker depsolve job
   (src/cmd/osbuild-worker/jobimpl-depsolve.go).

   Conventions: Go maps become association lists with insert-overwrite
   semantics; Go uint64 arithmetic is Nat with explicit reduction modulo
   2^64 where the source can overflow; Go panics become the error side of
   an Except or a dedicated result constructor; pointers that are nil-able
   become Option.  Packages that are referenced but not under src/
   (rpmmd, blueprint, disk, osbuild, ostree, common, oscap) are modelled
   from the spec where their behavior matters; each such definition says so
   in its doc comment. -/

-- ### rpmmd types

/-- Modelled from the spec: rpmmd.RepoConfig (the rpmmd package is not under
src/).  Spec section 4.2 step 5: a repository scoped to specific named package
sets applies only to those; an unscoped repository applies to all sets. -/
structure RepoConfig where
  Name : String := ""
  BaseURLs : List String := []
  PackageSets : List String := []
  deriving DecidableEq

/-- Modelled from the spec: rpmmd.PackageSet, a named collection of
include/exclude package name lists plus associated repositories. -/
structure PackageSet where
  Include : List String := []
  Exclude : List String := []
  Repositories : List RepoConfig := []
  deriving DecidableEq

/-- Modelled from the spec: PackageSet.Append concatenates includes/excludes
and unions (concatenates, order-preserving) repositories. -/
def PackageSet.Append (ps other : PackageSet) : PackageSet :=
  { Include := ps.Include ++ other.Include
    Exclude := ps.Exclude ++ other.Exclude
    Repositories := ps.Repositories ++ other.Repositories }

/-- Modelled from the spec: rpmmd.PackageSpec, a concrete resolved package. -/
structure PackageSpec where
  Name : String := ""
  Version : String := ""
  Checksum : String := ""
  deriving DecidableEq

-- ### container / ostree / osbuild types

/-- container.Spec: source reference, TLS-verify flag, local name (spec
section 3; the container package is not under src/). -/
structure ContainerSpec where
  Source : String := ""
  TLSVerify : Bool := true
  LocalName : String := ""
  deriving DecidableEq

/-- A container reference inside a blueprint (blueprint package is not under
src/); PackageSetsNew copies Source, TLSVerify and Name into a
container.Spec unchanged. -/
structure BlueprintContainer where
  Source : String := ""
  Name : String := ""
  TLSVerify : Bool := true
  deriving DecidableEq

/-- ostree.CommitSpec as constructed in imageType.Manifest: checksum, URL,
content URL and an optional secrets reference (zero value = none). -/
structure CommitSpec where
  Checksum : String := ""
  URL : String := ""
  ContentURL : String := ""
  Secrets : String := ""
  deriving DecidableEq

/-- An osbuild pipeline object.  Spec section 6: pipeline objects retain their
own internal schemas uninterpreted by the core beyond ordering and identity,
so only an identity is modelled. -/
structure Pipeline where
  name : String := ""
  deriving DecidableEq

/-- The sources section of an osbuild manifest: package, commit, inline and
container sources. -/
structure SourcesObject where
  packages : List PackageSpec := []
  commits : List CommitSpec := []
  inline : List String := []
  containers : List ContainerSpec := []
  deriving DecidableEq

/-- Modelled from the spec: osbuild.GenSources (not under src/) merges
package, commit, inline and container sources into the sources object
(spec section 4.5 step 7). -/
def GenSources (packages : List PackageSpec) (commits : List CommitSpec)
    (inlineData : List String) (containers : List ContainerSpec) : SourcesObject :=
  { packages := packages, commits := commits, inline := inlineData, containers := containers }

/-- osbuild.Manifest: the wire object serialized by imageType.Manifest. -/
structure OsbuildManifest where
  Version : String := ""
  Pipelines : List Pipeline := []
  Sources : SourcesObject := {}

-- ### blueprint customizations

/-- Modelled from the spec: blueprint.KernelCustomization; GetKernel defaults
the kernel name when the blueprint does not set one. -/
structure KernelCustomization where
  Name : String := "kernel"
  Append : String := ""
  deriving DecidableEq

/-- Modelled from the spec: the FDO/ownership-voucher customization block
with its manufacturing server URL and the three trust-anchor fields. -/
structure FDOCustomization where
  ManufacturingServerURL : String := ""
  DiunPubKeyHash : String := ""
  DiunPubKeyInsecure : String := ""
  DiunPubKeyRootCerts : String := ""
  deriving DecidableEq

/-- Modelled from the spec: a filesystem customization names a mountpoint. -/
structure FilesystemCustomization where
  Mountpoint : String := ""
  MinSize : Nat := 0
  deriving DecidableEq

/-- Modelled from the spec: the compliance-scan customization carries a
datastream and a profile identifier. -/
structure OpenSCAPCustomization where
  DataStream : String := ""
  ProfileID : String := ""
  deriving DecidableEq

/-- Modelled from the spec: service enable/disable lists. -/
structure ServicesCustomization where
  Enabled : List String := []
  Disabled : List String := []
  deriving DecidableEq

/-- Modelled from the spec: blueprint.Customizations (spec section 3), the
sections probed by checkOptions and package-set resolution.  A nil pointer in
Go behaves like the all-unset value. -/
structure Customizations where
  Hostname : Option String := none
  Kernel : Option KernelCustomization := none
  User : List String := []
  Group : List String := []
  Timezone : Option String := none
  Locale : Option String := none
  Services : Option ServicesCustomization := none
  Filesystem : Option (List FilesystemCustomization) := none
  InstallationDevice : String := ""
  FDO : Option FDOCustomization := none
  OpenSCAP : Option OpenSCAPCustomization := none
  deriving DecidableEq

def Customizations.GetKernel (c : Customizations) : KernelCustomization :=
  c.Kernel.getD {}

def Customizations.GetInstallationDevice (c : Customizations) : String :=
  c.InstallationDevice

def Customizations.GetFDO (c : Customizations) : Option FDOCustomization :=
  c.FDO

def Customizations.GetFilesystems (c : Customizations) : Option (List FilesystemCustomization) :=
  c.Filesystem

def Customizations.GetOpenSCAP (c : Customizations) : Option OpenSCAPCustomization :=
  c.OpenSCAP

def Customizations.GetTimezoneSettings (c : Customizations) : Option String :=
  c.Timezone

/-- The customization sections a blueprint has set, by Go field name. -/
def Customizations.setFieldNames (c : Customizations) : List String :=
  (if c.Hostname.isSome then ["Hostname"] else []) ++
  (if c.Kernel.isSome then ["Kernel"] else []) ++
  (if !c.User.isEmpty then ["User"] else []) ++
  (if !c.Group.isEmpty then ["Group"] else []) ++
  (if c.Timezone.isSome then ["Timezone"] else []) ++
  (if c.Locale.isSome then ["Locale"] else []) ++
  (if c.Services.isSome then ["Services"] else []) ++
  (if c.Filesystem.isSome then ["Filesystem"] else []) ++
  (if !(c.InstallationDevice == "") then ["InstallationDevice"] else []) ++
  (if c.FDO.isSome then ["FDO"] else []) ++
  (if c.OpenSCAP.isSome then ["OpenSCAP"] else [])

/-- Modelled from the spec: Customizations.CheckAllowed succeeds exactly when
every customization section that is set is named in the allow-list (spec
section 4.4: restricts allowed customizations to an explicit allow-list). -/
def Customizations.CheckAllowed (c : Customizations) (allowed : List String) : Bool :=
  c.setFieldNames.all (fun f => allowed.contains f)

/-- Modelled from the spec: blueprint.Blueprint with its package list,
embedded container references and customizations. -/
structure Blueprint where
  Name : String := ""
  Packages : List String := []
  Containers : List BlueprintContainer := []
  Custom : Customizations := {}
  deriving DecidableEq

def Blueprint.GetPackages (bp : Blueprint) : List String :=
  bp.Packages

-- ### image options

/-- distro.ImageOptions.OSTree: checksum, URL, content URL, RHSM flag and the
target image ref. -/
structure OSTreeImageOptions where
  ImageRef : String := ""
  FetchChecksum : String := ""
  URL : String := ""
  ContentURL : String := ""
  RHSM : Bool := false
  deriving DecidableEq

/-- distro.ImageOptions: requested size and OSTree source parameters. -/
structure ImageOptions where
  Size : Nat := 0
  OSTree : OSTreeImageOptions := {}
  deriving DecidableEq

-- ### disk types

/-- Modelled from the spec: a partition of a disk.PartitionTable carries a
mountpoint (spec section 3; the disk package is not under src/). -/
structure DiskPartition where
  Mountpoint : String := ""
  Size : Nat := 0
  deriving DecidableEq

/-- Modelled from the spec: disk.PartitionTable, an ordered list of
partitions/mountpoints with a table type. -/
structure PartitionTable where
  PtType : String := ""
  Partitions : List DiskPartition := []
  deriving DecidableEq

/-- disk.PartitionTable.ContainsMountpoint: whether some partition of the
table carries the given mountpoint. -/
def PartitionTable.ContainsMountpoint (pt : PartitionTable) (mp : String) : Bool :=
  pt.Partitions.any (fun p => p.Mountpoint == mp)

/-- Modelled from the spec: disk.CheckMountpoints validates each custom
mountpoint against the mountpoint policy set (allowed paths); the policy is
the ambient disk.MountpointPolicies value, passed explicitly here. -/
def CheckMountpoints (mountpoints : List FilesystemCustomization) (policy : List String) : Except String Unit :=
  match mountpoints.find? (fun m => !(policy.contains m.Mountpoint)) with
  | some m => .error ("path " ++ m.Mountpoint ++ " is not allowed")
  | none => .ok ()

-- ### common helpers

/-- common.MebiByte. -/
def MebiByte : Nat := 1048576

/-- 2^64: Go uint64 arithmetic wraps at this modulus. -/
def U64 : Nat := 18446744073709551616

/-- Numeric components of a dotted version string. -/
def versionComponents (s : String) : List Nat :=
  (s.splitOn ".").map (fun c => c.toNat?.getD 0)

/-- Lexicographic compare of version component lists. -/
def versionLtCore : List Nat → List Nat → Bool
  | [], [] => false
  | [], _ :: _ => true
  | _ :: _, [] => false
  | a :: as, b :: bs => if a < b then true else if b < a then false else versionLtCore as bs

/-- Modelled from the spec: common.VersionLessThan (version floor
enforcement for the compliance-scan rule). -/
def VersionLessThan (a b : String) : Bool :=
  versionLtCore (versionComponents a) (versionComponents b)

/-- The oscap profile allow-list of the scos distro (oscap.Ospp, oscap.PciDss,
oscap.Standard; the oscap package itself is not under src/, profile
identifiers modelled as strings). -/
def oscapProfileAllowList : List String := ["ospp", "pci-dss", "standard"]

/-- oscap.IsProfileAllowed: membership in the allow-list. -/
def IsProfileAllowed (profile : String) (allowList : List String) : Bool :=
  allowList.contains profile

-- ### package set key constants

/-- Package set name constants of the rhel8 imagetype.go part. -/
def buildPkgsKey : String := "build"

/-- The main/common os image package set name of the rhel8 part is the
literal "packages". -/
def osPkgsKey : String := "packages"

def containerPkgsKey : String := "container"

def installerPkgsKey : String := "installer"

def blueprintPkgsKey : String := "blueprint"

/-- The scos part of the file re-declares the os package set name as the
literal "os"; its image types key their package sets with it. -/
def scosOsPkgsKey : String := "os"

-- ### distribution / platform / image config

/-- The static part of the scos distribution struct (arches are carried by
the registry model below); rhel is the isRHEL() predicate probed by the
compliance-scan rule, false for every scos distro. -/
structure distribution where
  name : String := ""
  product : String := ""
  osVersion : String := ""
  releaseVersion : String := ""
  modulePlatformID : String := ""
  ostreeRefTmpl : String := ""
  isolabelTmpl : String := ""
  rhel : Bool := false
  deriving DecidableEq

/-- The platform argument of addImageTypes (platform.X86 / platform.Aarch64),
reduced to the fields the catalog sets. -/
structure PlatformInfo where
  archName : String := ""
  uefiVendor : String := ""
  bios : Bool := false
  deriving DecidableEq

/-- distro.ImageConfig, reduced to the fields the catalog sets. -/
structure ImageConfig where
  EnabledServices : List String := []
  Timezone : Option String := none
  Locale : Option String := none
  deriving DecidableEq

-- ### the imageType structure

/-- The type of an image type's pipelines function.  The source passes the
image type itself as first argument; here the stored function is already
specialized to its image type. -/
abbrev PipelinesFn : Type :=
  Customizations → ImageOptions → List RepoConfig → List (String × List PackageSpec) →
    List ContainerSpec → Nat → Except String (List Pipeline)

/-- The imageType struct.  The arch back-pointer becomes copies of the owning
architecture's name and distribution (both immutable after registration); the
packageSets map of functions is stored pre-applied, which is faithful because
every packageSetFunc under src/ is constant in its image-type argument; the
image function field keeps only nil-ness and the constructor's identity (the
image constructors live in packages not under src/). -/
structure imageType where
  archName : String := ""
  distro : distribution := {}
  platform : PlatformInfo := {}
  name : String := ""
  nameAliases : List String := []
  filename : String := ""
  compression : String := ""
  mimeType : String := ""
  packageSets : List (String × PackageSet) := []
  packageSetChains : List (String × List String) := []
  defaultImageConfig : Option ImageConfig := none
  kernelOptions : String := ""
  defaultSize : Nat := 0
  buildPipelines : List String := []
  payloadPipelines : List String := []
  exports : List String := []
  pipelines : Option PipelinesFn := none
  image : Option String := none
  bootISO : Bool := false
  rpmOstree : Bool := false
  bootable : Bool := false
  basePartitionTables : List (String × PartitionTable) := []

instance : Inhabited imageType := ⟨{}⟩

def imageType.Name (t : imageType) : String := t.name

def imageType.Filename (t : imageType) : String := t.filename

def imageType.MIMEType (t : imageType) : String := t.mimeType

/-- imageType.OSTreeRef: instantiates the distro ref template with the arch
name for ostree types, empty otherwise. -/
def imageType.OSTreeRef (t : imageType) : String :=
  if t.rpmOstree then t.distro.ostreeRefTmpl.replace "%s" t.archName else ""

/-- imageType.Size.  Go uint64 arithmetic: the VHD rounding computes
(size/MebiByte + 1) * MebiByte in uint64, which wraps modulo 2^64. -/
def imageType.Size (t : imageType) (size : Nat) : Nat :=
  let size :=
    if t.name == "vhd" && size % MebiByte != 0 then
      ((size / MebiByte + 1) * MebiByte) % U64
    else size
  if size == 0 then t.defaultSize else size

def imageType.Exports (t : imageType) : List String :=
  if 0 < t.exports.length then t.exports else ["assembler"]

def imageType.getPackages (t : imageType) (name : String) : PackageSet :=
  match t.packageSets.lookup name with
  | none => {}
  | some ps => ps

-- ### association list insert with Go map overwrite semantics

def alistInsert {α : Type} : List (String × α) → String → α → List (String × α)
  | [], k, v => [(k, v)]
  | (k2, v2) :: rest, k, v =>
    if k2 == k then (k, v) :: rest else (k2, v2) :: alistInsert rest k v

-- ### package-set resolution (legacy path of imageType.PackageSets)

/-- The "new mountpoint" test of imageType.PackageSets: some blueprint
filesystem customization names a mountpoint absent from the image type's base
partition table for its architecture (a missing base table behaves as the
zero PartitionTable, exactly as a Go map miss does). -/
def imageType.haveNewMountpoint (t : imageType) (bp : Blueprint) : Bool :=
  match bp.Custom.GetFilesystems with
  | none => false
  | some fs =>
    let pt := (t.basePartitionTables.lookup t.archName).getD {}
    fs.any (fun f => !(pt.ContainsMountpoint f.Mountpoint))

/-- The blueprint-derived package list of imageType.PackageSets: blueprint
packages, plus chrony for a timezone customization, plus lvm2 when a
non-ostree image gains a new mountpoint, plus the two OpenSCAP packages when
a compliance-scan customization is present. -/
def imageType.bpPackages (t : imageType) (bp : Blueprint) : List String :=
  let pkgs := bp.GetPackages
  let pkgs := match bp.Custom.GetTimezoneSettings with
    | some _ => pkgs ++ ["chrony"]
    | none => pkgs
  let pkgs := if !t.rpmOstree && t.haveNewMountpoint bp then pkgs ++ ["lvm2"] else pkgs
  let pkgs := if (bp.Custom.GetOpenSCAP).isSome then
      pkgs ++ ["openscap-scanner", "scap-security-guide"]
    else pkgs
  pkgs

/-- Whether a repository applies to the named package set (spec section 4.2
step 5). -/
def repoAppliesTo (r : RepoConfig) (name : String) : Bool :=
  r.PackageSets.isEmpty || r.PackageSets.contains name

def attachRepos (name : String) (ps : PackageSet) (repos : List RepoConfig) : PackageSet :=
  { ps with Repositories := ps.Repositories ++ repos.filter (fun r => repoAppliesTo r name) }

/-- Modelled from the spec: distro.MakePackageSetChains (the distro package
is not under src/).  Spec section 4.2 steps 5-6: chains declared by the image
type become ordered lists of their member sets, every remaining set becomes a
singleton chain, and repositories attach per their scoping. -/
def MakePackageSetChains (t : imageType) (sets : List (String × PackageSet))
    (repos : List RepoConfig) : List (String × List PackageSet) :=
  let chained := t.packageSetChains.map
    (fun nc => (nc.1, nc.2.map (fun cs => attachRepos cs ((sets.lookup cs).getD {}) repos)))
  let consumed := t.packageSetChains.foldl (fun acc nc => acc ++ nc.2) []
  let rest := (sets.filter (fun p => !(consumed.contains p.1))).map
    (fun p => (p.1, [attachRepos p.1 p.2 repos]))
  chained ++ rest

/-- The merged package-set map of imageType.PackageSets (legacy path): the
image type's own sets, an empty os set as default, skopeo (plus
python3-pytoml on ostree) added to the build root when containers are
embedded, the blueprint-derived packages as their own set, and the blueprint
kernel appended to the os set. -/
def imageType.mergedPackageSets (t : imageType) (bp : Blueprint) :
    List (String × PackageSet) :=
  let mergedSets := t.packageSets.map (fun p => (p.1, t.getPackages p.1))
  let mergedSets :=
    if (t.packageSets.lookup osPkgsKey).isSome then mergedSets
    else alistInsert mergedSets osPkgsKey {}
  let mergedSets :=
    if 0 < bp.Containers.length then
      let extraPkgs : PackageSet := { Include := ["skopeo"] }
      let extraPkgs :=
        if t.rpmOstree then extraPkgs.Append { Include := ["python3-pytoml"] }
        else extraPkgs
      alistInsert mergedSets buildPkgsKey
        (((mergedSets.lookup buildPkgsKey).getD {}).Append extraPkgs)
    else mergedSets
  let mergedSets := alistInsert mergedSets blueprintPkgsKey { Include := t.bpPackages bp }
  alistInsert mergedSets osPkgsKey
    (((mergedSets.lookup osPkgsKey).getD {}).Append
      { Include := [bp.Custom.GetKernel.Name] })

/-- imageType.PackageSets, legacy path (taken when t.image == nil; an image
type with an image function dispatches to PackageSetsNew instead).  The Go
panic on a missing build package set becomes the error side; the merge steps
that the source interleaves with the panic check only read t.packageSets and
the blueprint, so factoring them into mergedPackageSets preserves the
function's value. -/
def imageType.packageSetsLegacy (t : imageType) (bp : Blueprint)
    (repos : List RepoConfig) : Except String (List (String × List PackageSet)) :=
  if (t.packageSets.lookup buildPkgsKey).isNone then
    .error ("\x27" ++ t.name ++ "\x27 image type has no \x27" ++ buildPkgsKey ++
      "\x27 package set defined")
  else
    .ok (MakePackageSetChains t (t.mergedPackageSets bp) repos)

-- ### partition table derivation

/-- The arguments imageType.getPartitionTable passes to disk.NewPartitionTable
(which is not under src/): the base table for the architecture, the requested
mountpoints, the resolved image size and the lvmify flag. -/
structure PartitionTableRequest where
  basePT : PartitionTable := {}
  mountpoints : List FilesystemCustomization := []
  imageSize : Nat := 0
  lvmify : Bool := false
  deriving DecidableEq

/-- imageType.getPartitionTable up to the call into disk.NewPartitionTable:
an unknown architecture is an error; otherwise the method resolves the image
size via Size and lvmifies exactly when the image is not ostree-based. -/
def imageType.getPartitionTable (t : imageType)
    (mountpoints : List FilesystemCustomization) (options : ImageOptions) :
    Except String PartitionTableRequest :=
  match t.basePartitionTables.lookup t.archName with
  | none => .error ("unknown arch: " ++ t.archName)
  | some basePartitionTable =>
    .ok { basePT := basePartitionTable
          mountpoints := mountpoints
          imageSize := t.Size options.Size
          lvmify := !t.rpmOstree }

-- ### the options validator

/-- The count of set FDO trust-anchor fields (the diunSet counter of
checkOptions). -/
def FDOCustomization.diunSetCount (f : FDOCustomization) : Nat :=
  (if f.DiunPubKeyHash == "" then 0 else 1) +
  (if f.DiunPubKeyInsecure == "" then 0 else 1) +
  (if f.DiunPubKeyRootCerts == "" then 0 else 1)

/-- imageType.checkOptions.  The nested early-return rule table of the source
is written as one first-violated-rule-wins chain; each flattened condition
carries the guards of its enclosing blocks, so the chain is
control-flow-equivalent to the source.  The mountpoint policy is the ambient
disk.MountpointPolicies value, passed explicitly as `policy`. -/
def imageType.checkOptions (t : imageType) (policy : List String)
    (customizations : Customizations) (options : ImageOptions)
    (containers : List ContainerSpec) : Except String Unit :=
  if 0 < containers.length && t.rpmOstree &&
      !(t.name == "edge-commit") && !(t.name == "edge-container") then
    .error ("embedding containers is not supported for " ++ t.name ++ " on " ++
      t.distro.name)
  else if t.bootISO && t.rpmOstree && options.OSTree.FetchChecksum == "" then
    .error ("boot ISO image type \"" ++ t.name ++
      "\" requires specifying a URL from which to retrieve the OSTree commit")
  else if t.bootISO && t.rpmOstree && t.name == "edge-simplified-installer" &&
      !(customizations.CheckAllowed ["InstallationDevice", "FDO"]) then
    .error ("unsupported blueprint customizations found for boot ISO image type \"" ++
      t.name ++ "\": (allowed: InstallationDevice, FDO)")
  else if t.bootISO && t.rpmOstree && t.name == "edge-simplified-installer" &&
      customizations.GetInstallationDevice == "" then
    .error ("boot ISO image type \"" ++ t.name ++
      "\" requires specifying an installation device to install to")
  else if t.bootISO && t.rpmOstree && t.name == "edge-simplified-installer" &&
      customizations.GetFDO.isSome &&
      (customizations.GetFDO.getD {}).ManufacturingServerURL == "" then
    .error ("boot ISO image type \"" ++ t.name ++
      "\" requires specifying FDO.ManufacturingServerURL configuration to install to")
  else if t.bootISO && t.rpmOstree && t.name == "edge-simplified-installer" &&
      customizations.GetFDO.isSome &&
      !((customizations.GetFDO.getD {}).diunSetCount == 1) then
    .error ("boot ISO image type \"" ++ t.name ++
      "\" requires specifying one of [FDO.DiunPubKeyHash,FDO.DiunPubKeyInsecure,FDO.DiunPubKeyRootCerts] configuration to install to")
  else if t.bootISO && t.rpmOstree && t.name == "edge-installer" &&
      !(customizations.CheckAllowed ["User", "Group"]) then
    .error ("unsupported blueprint customizations found for boot ISO image type \"" ++
      t.name ++ "\": (allowed: User, Group)")
  else if t.name == "edge-raw-image" && options.OSTree.FetchChecksum == "" then
    .error "edge raw images require specifying a URL from which to retrieve the OSTree commit"
  else if !(customizations.GetKernel.Append == "") && t.rpmOstree &&
      (!t.bootable || t.bootISO) then
    .error "kernel boot parameter customizations are not supported for ostree types"
  else if customizations.GetFilesystems.isSome && t.rpmOstree then
    .error "Custom mountpoints are not supported for ostree types"
  else
    match CheckMountpoints (customizations.GetFilesystems.getD []) policy with
    | .error e => .error e
    | .ok _ =>
      match customizations.GetOpenSCAP with
      | none => .ok ()
      | some osc =>
        if !t.distro.rhel || VersionLessThan t.distro.osVersion "8.7" then
          .error ("OpenSCAP unsupported os version: " ++ t.distro.osVersion)
        else if !(IsProfileAllowed osc.ProfileID oscapProfileAllowList) then
          .error ("OpenSCAP unsupported profile: " ++ osc.ProfileID)
        else if t.rpmOstree then
          .error "OpenSCAP customizations are not supported for ostree types"
        else if osc.DataStream == "" then
          .error "OpenSCAP datastream cannot be empty"
        else if osc.ProfileID == "" then
          .error "OpenSCAP profile cannot be empty"
        else .ok ()

-- ### manifest assembly (legacy path of imageType.Manifest)

/-- imageType.Manifest, legacy path (taken when t.image == nil; otherwise the
method dispatches to ManifestNew, whose body lives in packages not under
src/).  json.Marshal is external serialization, so the osbuild.Manifest value
being marshalled is returned.  The deterministic rng seeded from `seed` is
passed through to the pipelines function. -/
def imageType.ManifestLegacy (t : imageType) (policy : List String)
    (customizations : Customizations) (options : ImageOptions)
    (repos : List RepoConfig) (packageSpecSets : List (String × List PackageSpec))
    (containers : List ContainerSpec) (seed : Nat) : Except String OsbuildManifest :=
  match t.checkOptions policy customizations options containers with
  | .error e => .error e
  | .ok _ =>
    match t.pipelines with
    | none => .error "image type has no pipelines function"
    | some pf =>
      match pf customizations options repos packageSpecSets containers seed with
      | .error e => .error e
      | .ok pipelines =>
        let allPackageSpecs := packageSpecSets.foldl (fun acc p => acc ++ p.2) []
        let commits : List CommitSpec :=
          if !(options.OSTree.FetchChecksum == "") && !(options.OSTree.URL == "") then
            [{ Checksum := options.OSTree.FetchChecksum
               URL := options.OSTree.URL
               ContentURL := options.OSTree.ContentURL
               Secrets := if options.OSTree.RHSM then "org.osbuild.rhsm.consumer" else "" }]
          else []
        let inlineData : List String :=
          match customizations.GetFDO with
          | some f => if !(f.DiunPubKeyRootCerts == "") then [f.DiunPubKeyRootCerts] else []
          | none => []
        .ok { Version := "2"
              Pipelines := pipelines
              Sources := GenSources allPackageSpecs commits inlineData containers }

-- ### the architecture registry

/-- The architecture struct: owning distribution, name, image-type map and
alias map (association lists with Go map semantics). -/
structure architecture where
  distro : distribution := {}
  name : String := ""
  imageTypes : List (String × imageType) := []
  imageTypeAliases : List (String × String) := []

instance : Inhabited architecture := ⟨{}⟩

/-- The outcome of architecture.GetImageType: the Go method returns an image
type or a not-found error, and panics on a dangling alias. -/
inductive LookupResult (α : Type) where
  | found : α → LookupResult α
  | notFound : String → LookupResult α
  | panicked : String → LookupResult α

def LookupResult.isPanicked {α : Type} : LookupResult α → Bool
  | .panicked _ => true
  | _ => false

def LookupResult.isFound {α : Type} : LookupResult α → Bool
  | .found _ => true
  | _ => false

/-- architecture.GetImageType: canonical map first, then the alias map; a
dangling alias panics. -/
def architecture.GetImageType (a : architecture) (name : String) :
    LookupResult imageType :=
  match a.imageTypes.lookup name with
  | some t => .found t
  | none =>
    match a.imageTypeAliases.lookup name with
    | none => .notFound ("invalid image type: " ++ name)
    | some aliasForName =>
      match a.imageTypes.lookup aliasForName with
      | some t => .found t
      | none =>
        .panicked ("image type \x27" ++ name ++
          "\x27 is an alias to a non-existing image type \x27" ++ aliasForName ++ "\x27")

/-- The alias-registration loop of architecture.addImageTypes; the Go panic
on a duplicate alias becomes the error side. -/
def architecture.addAliases (a : architecture) (typeName : String) :
    List String → Except String architecture
  | [] => .ok a
  | al :: rest =>
    if (a.imageTypeAliases.lookup al).isSome then
      .error ("image type alias \x27" ++ al ++ "\x27 for \x27" ++ typeName ++
        "\x27 is already defined for another image type \x27" ++
        ((a.imageTypeAliases.lookup al).getD "") ++ "\x27")
    else
      architecture.addAliases
        { a with imageTypeAliases := alistInsert a.imageTypeAliases al typeName }
        typeName rest

/-- The body of the addImageTypes registration loop for one image type: copy
it, bind it to the architecture (and platform), insert it under its canonical
name, then register its aliases pointing at that name. -/
def architecture.addOneImageType (a : architecture) (p : PlatformInfo)
    (it : imageType) : Except String architecture :=
  let it2 := { it with archName := a.name, distro := a.distro, platform := p }
  let a2 := { a with imageTypes := alistInsert a.imageTypes it2.name it2 }
  a2.addAliases it2.name it2.nameAliases

/-- architecture.addImageTypes: the registration loop over the given image
types. -/
def architecture.addImageTypes (a : architecture) (p : PlatformInfo) :
    List imageType → Except String architecture
  | [] => .ok a
  | it :: rest =>
    match a.addOneImageType p it with
    | .error e => .error e
    | .ok a2 => a2.addImageTypes p rest

-- ### the depsolve job

/-- The external dependency solver boundary (rpmmd.RPMMD.Depsolve): given a
package set, repositories, module platform id, architecture and release
version it returns resolved package specs or an error. -/
abbrev DepsolveSolver : Type :=
  PackageSet → List RepoConfig → String → String → String →
    Except String (List PackageSpec)

/-- worker.DepsolveJob: the depsolve request. -/
structure DepsolveJob where
  PackageSetsReq : List (String × PackageSet) := []
  Repos : List RepoConfig := []
  ModulePlatformID : String := ""
  Arch : String := ""
  Releasever : String := ""

/-- worker.DepsolveJobResult: resolved specs per requested name, or an error
string. -/
structure DepsolveJobResult where
  PackageSpecs : Option (List (String × List PackageSpec)) := none
  ErrorStr : String := ""

/-- DepsolveJobImpl.depsolve: resolve each requested package set in turn; any
failure aborts with that error and no partial map. -/
def depsolveImpl (solver : DepsolveSolver) (packageSets : List (String × PackageSet))
    (repos : List RepoConfig) (mpid arch relver : String) :
    Except String (List (String × List PackageSpec)) :=
  match packageSets with
  | [] => .ok []
  | (name, ps) :: rest =>
    match solver ps repos mpid arch relver with
    | .error e => .error e
    | .ok specs =>
      match depsolveImpl solver rest repos mpid arch relver with
      | .error e => .error e
      | .ok acc => .ok ((name, specs) :: acc)

/-- DepsolveJobImpl.Run, after the job arguments have been decoded: on
success the result carries the spec map and an empty error string; on failure
it carries nil specs and the error string. -/
def depsolveRun (solver : DepsolveSolver) (args : DepsolveJob) : DepsolveJobResult :=
  match depsolveImpl solver args.PackageSetsReq args.Repos args.ModulePlatformID
      args.Arch args.Releasever with
  | .ok specs => { PackageSpecs := some specs, ErrorStr := "" }
  | .error e => { PackageSpecs := none, ErrorStr := e }

-- ### the scos catalog (src/pkg/distro/scos/package_sets.go and the scos
-- registry part of the source file)

/-- rockyCommitPackageSet (src/pkg/distro/scos/package_sets.go). -/
def rockyCommitPackageSet : PackageSet :=
  { Include :=
      ["rocky-release", "basesystem", "network-scripts", "kernel",
       "glibc", "tmux", "nss-altfiles", "glibc-minimal-langpack",
       "lvm2", "cryptsetup", "dracut", "dracut-config-generic",
       "bash", "bash-completion", "crontabs", "logrotate",
       "coreutils", "which", "curl", "wget", "openssl", "jq",
       "hostname", "iproute", "iputils", "iptables",
       "openssh-clients", "openssh-server", "passwd",
       "dnsmasq", "traceroute", "tcpdump", "net-tools",
       "tar", "gzip", "xz", "man", "polkit",
       "e2fsprogs", "xfsprogs", "dosfstools",
       "sudo", "systemd", "util-linux", "vim-minimal",
       "setools-console", "kernel-tools",
       "setup", "shadow-utils", "attr", "audit",
       "policycoreutils", "selinux-policy-targeted",
       "procps-ng", "rpm", "rpm-ostree",
       "keyutils", "cracklib-dicts",
       "gnupg2", "pinentry", "cloud-init",
       "grub2", "grub2-efi-x64", "efibootmgr", "shim-x64",
       "containerd.io", "docker-ce", "docker-compose-plugin"]
    Exclude :=
      ["geolite2-city", "geolite2-country", "glibc-all-langpacks", "mozjs78"] }

def scosServices : List String :=
  ["sshd.service", "containerd.service", "docker.service"]

def scosRockyCommitImgType : imageType :=
  { name := "ostree-commit"
    nameAliases := ["scos-rocky-commit"]
    filename := "commit.tar"
    mimeType := "application/x-tar"
    packageSets := [(scosOsPkgsKey, rockyCommitPackageSet)]
    defaultImageConfig := some { EnabledServices := scosServices }
    rpmOstree := true
    image := some "iotCommitImage"
    buildPipelines := ["build"]
    payloadPipelines := ["os", "ostree-commit", "commit-archive"]
    exports := ["commit-archive"] }

def scosRockyOCIImgType : imageType :=
  { name := "ostree-container"
    nameAliases := ["scos-rocky-container"]
    filename := "container.tar"
    mimeType := "application/x-tar"
    packageSets := [(scosOsPkgsKey, rockyCommitPackageSet), (containerPkgsKey, {})]
    defaultImageConfig := some { EnabledServices := scosServices }
    rpmOstree := true
    bootISO := false
    image := some "iotContainerImage"
    buildPipelines := ["build"]
    payloadPipelines := ["os", "ostree-commit", "container-tree", "container"]
    exports := ["container"] }

def scosOECommitImgType : imageType :=
  { name := "ostree-commit"
    nameAliases := ["scos-oe-commit"]
    filename := "commit.tar"
    mimeType := "application/x-tar"
    packageSets := [(scosOsPkgsKey, rockyCommitPackageSet)]
    defaultImageConfig := some { EnabledServices := scosServices }
    rpmOstree := true
    image := some "iotCommitImage"
    buildPipelines := ["build"]
    payloadPipelines := ["os", "ostree-commit", "commit-archive"]
    exports := ["commit-archive"] }

def scosOEOCIImgType : imageType :=
  { name := "ostree-container"
    nameAliases := ["scos-oe-container"]
    filename := "container.tar"
    mimeType := "application/x-tar"
    packageSets := [(scosOsPkgsKey, rockyCommitPackageSet), (containerPkgsKey, {})]
    defaultImageConfig := some { EnabledServices := scosServices }
    rpmOstree := true
    bootISO := false
    image := some "iotContainerImage"
    buildPipelines := ["build"]
    payloadPipelines := ["os", "ostree-commit", "container-tree", "container"]
    exports := ["container"] }

/-- getDistro: the static distribution data (the default base falls through
to rocky; the distribution defaults to the UTC/en_US default image config,
which no claim probes and which is therefore not carried here). -/
def getDistro (base : String) (version : Nat) : distribution :=
  if base == "oe" then
    { name := "scos-oe-" ++ toString version
      product := "SCOS"
      osVersion := toString version
      releaseVersion := toString version
      modulePlatformID := "platform:oe" ++ toString version
      ostreeRefTmpl := "scos/oe" ++ toString version ++ "/%s/os"
      isolabelTmpl := "SCOS-OpenEuler" ++ toString version ++ "-BaseOS-%s" }
  else
    { name := "scos-rocky-" ++ toString version
      product := "SCOS"
      osVersion := toString version
      releaseVersion := toString version
      modulePlatformID := "platform:el" ++ toString version
      ostreeRefTmpl := "scos/rocky" ++ toString version ++ "/%s/os"
      isolabelTmpl := "SCOS-Rocky" ++ toString version ++ "-BaseOS-%s" }

/-- The x86_64 platform registered by newRockyDistro / newOEDistro. -/
def platX86 : PlatformInfo := { archName := "x86_64", uefiVendor := "smartx", bios := true }

/-- The aarch64 platform registered by newRockyDistro / newOEDistro. -/
def platAarch64 : PlatformInfo := { archName := "aarch64", uefiVendor := "smartx" }

/-- The empty x86_64 architecture of newRockyDistro before registration. -/
def rockyX86Start : architecture := { distro := getDistro "rocky" 8, name := "x86_64" }

/-- The x86_64 architecture of the Rocky 8 distro as newRockyDistro builds it
(registration cannot fail here: the two aliases are distinct). -/
def rockyX86 : architecture :=
  match rockyX86Start.addImageTypes platX86 [scosRockyCommitImgType, scosRockyOCIImgType] with
  | .ok a => a
  | .error _ => rockyX86Start

/-- The registered copy of the Rocky ostree-commit image type, as GetImageType
hands it out. -/
def rockyCommitRegistered : imageType :=
  (rockyX86.imageTypes.lookup "ostree-commit").getD {}

-- ### claim C7: image size resolution

/-- A vhd image type for concrete size evaluations (the rhel8 vhd image type
definition itself is not under src/; only its name and a default size are
relevant to Size). -/
def vhdTestType : imageType := { name := "vhd", defaultSize := 10737418240 }

/-- A non-vhd image type for concrete size evaluations. -/
def qcow2TestType : imageType := { name := "qcow2", defaultSize := 10737418240 }

/-- C7 counterexample: Size does not round every non-zero vhd size up to the
next whole mebibyte.  At size 2^64 - 1 the Go uint64 computation
(size/MiB + 1) * MiB wraps to 0, so Size falls back to the default size,
which is smaller than the requested size. -/
theorem vhd_size_rounding_wraps_at_uint64_max :
    vhdTestType.Size (U64 - 1) = 10737418240 ∧
    vhdTestType.Size (U64 - 1) < U64 - 1 := by
  constructor <;> decide

/-- C7 (amended): Size resolves a caller size of 0 to the image type's
default size for every image type; returns non-zero sizes unchanged for
non-vhd image types; and for the vhd image type rounds a non-zero size up to
the nearest whole mebibyte provided the rounded value fits in uint64
(size ≤ 2^64 - 2^20; beyond that the 64-bit arithmetic wraps and the default
size is substituted, see the counterexample). -/
theorem size_resolution_rules (t : imageType) (s : Nat) :
    t.Size 0 = t.defaultSize ∧
    (t.name ≠ "vhd" → s ≠ 0 → t.Size s = s) ∧
    (t.name = "vhd" → s ≠ 0 → s ≤ U64 - MebiByte →
      t.Size s = MebiByte * ((s + MebiByte - 1) / MebiByte)) := by
  have hM : 0 < MebiByte := by norm_num [MebiByte]
  refine ⟨?_, ?_, ?_⟩
  · simp [imageType.Size]
  · intro hname hs
    have hb : (t.name == "vhd") = false := by
      simpa using hname
    simp [imageType.Size, hb, hs]
  · intro hname hs hle
    have hb : (t.name == "vhd") = true := by simpa using hname
    have hqm := Nat.div_add_mod s MebiByte
    have hrlt : s % MebiByte < MebiByte := Nat.mod_lt _ hM
    have hUM : MebiByte < U64 := by norm_num [MebiByte, U64]
    by_cases hr : s % MebiByte = 0
    · have hc : (t.name == "vhd" && s % MebiByte != 0) = false := by
        simp [hb, hr]
      have hdiv : (s + MebiByte - 1) / MebiByte = s / MebiByte := by
        apply Nat.div_eq_of_lt_le
        · rw [mul_comm]; omega
        · rw [Nat.succ_mul, mul_comm]; omega
      simp only [imageType.Size, hc, Bool.false_eq_true, if_false]
      rw [hdiv]
      have hsz : (s == 0) = false := by simpa using hs
      simp only [hsz, Bool.false_eq_true, if_false]
      omega
    · have hc : (t.name == "vhd" && s % MebiByte != 0) = true := by
        simp [hb, hr]
      have hlt : (s / MebiByte + 1) * MebiByte < U64 := by
        rw [add_mul, one_mul, mul_comm]; omega
      have hdiv : (s + MebiByte - 1) / MebiByte = s / MebiByte + 1 := by
        apply Nat.div_eq_of_lt_le
        · rw [add_mul, one_mul, mul_comm]; omega
        · rw [Nat.succ_mul, add_mul, one_mul, mul_comm]; omega
      have hpos : 0 < (s / MebiByte + 1) * MebiByte :=
        Nat.mul_pos (Nat.succ_pos _) hM
      have hnz : ((s / MebiByte + 1) * MebiByte % U64 == 0) = false := by
        rw [Nat.mod_eq_of_lt hlt]
        simpa using Nat.pos_iff_ne_zero.mp hpos
      simp only [imageType.Size, hc, if_true, hnz, Bool.false_eq_true, if_false]
      rw [Nat.mod_eq_of_lt hlt, hdiv]
      ring

/-- C7 witness: concrete instances of the size rules — size 1 on vhd rounds
up to 1 MiB, size 0 falls back to the default, an exact MiB multiple is
unchanged on vhd, and a non-vhd size is unchanged. -/
theorem size_resolution_rules_witness :
    vhdTestType.Size 1 = 1048576 ∧ vhdTestType.Size 0 = 10737418240 ∧
    vhdTestType.Size 2097152 = 2097152 ∧ qcow2TestType.Size 7 = 7 := by
  have h1 := size_resolution_rules vhdTestType 1
  have h2 := size_resolution_rules vhdTestType 2097152
  have h3 := size_resolution_rules qcow2TestType 7
  refine ⟨?_, h1.1.trans (by rfl), ?_, ?_⟩
  · exact (h1.2.2 rfl (by decide) (by norm_num [U64, MebiByte])).trans
      (by norm_num [MebiByte])
  · exact (h2.2.2 rfl (by decide) (by norm_num [U64, MebiByte])).trans
      (by norm_num [MebiByte])
  · exact h3.2.1 (by decide) (by decide)

-- ### claim C1: container embedding on ostree types

set_option maxHeartbeats 2000000 in
/-- C1: the container-embedding rule of checkOptions only excepts the names
"edge-commit" and "edge-container", but this catalog's canonical OSTree
artifact types are named "ostree-commit" and "ostree-container"; so the
registered Rocky commit image type — the commit itself, on which container
embedding is supposed to be allowed — is rejected whenever containers are
embedded. -/
theorem checkOptions_rejects_containers_on_scos_commit :
    rockyCommitRegistered.name = "ostree-commit" ∧
    rockyCommitRegistered.rpmOstree = true ∧
    rockyCommitRegistered.checkOptions [] {} {}
        [{ Source := "registry.example.com/app" }] =
      .error "embedding containers is not supported for ostree-commit on scos-rocky-8" :=
  ⟨rfl, rfl, rfl⟩

-- ### claim C6: custom mountpoints on ostree types

/-- C6: for every ostree-based image type, checkOptions errors whenever
custom filesystem mountpoints are supplied, for every content of the
mountpoint policy allow-list: the OSTree rejection is decided before, and
independently of, the policy check (the policy parameter is universally
quantified and never reached). -/
theorem ostree_rejects_custom_mountpoints
    (t : imageType) (c : Customizations) (o : ImageOptions)
    (cs : List ContainerSpec) (fs : List FilesystemCustomization)
    (policy : List String)
    (hOst : t.rpmOstree = true) (hfs : c.Filesystem = some fs) :
    (t.checkOptions policy c o cs).isOk = false := by
  have hfs' : c.GetFilesystems.isSome = true := by
    simp [Customizations.GetFilesystems, hfs]
  delta imageType.checkOptions
  by_cases h1 : (0 < cs.length && t.rpmOstree && !(t.name == "edge-commit") &&
      !(t.name == "edge-container")) = true
  · rw [if_pos h1]; rfl
  rw [if_neg h1]
  by_cases h2 : (t.bootISO && t.rpmOstree && o.OSTree.FetchChecksum == "") = true
  · rw [if_pos h2]; rfl
  rw [if_neg h2]
  by_cases h3 : (t.bootISO && t.rpmOstree && t.name == "edge-simplified-installer" &&
      !(c.CheckAllowed ["InstallationDevice", "FDO"])) = true
  · rw [if_pos h3]; rfl
  rw [if_neg h3]
  by_cases h4 : (t.bootISO && t.rpmOstree && t.name == "edge-simplified-installer" &&
      c.GetInstallationDevice == "") = true
  · rw [if_pos h4]; rfl
  rw [if_neg h4]
  by_cases h5 : (t.bootISO && t.rpmOstree && t.name == "edge-simplified-installer" &&
      c.GetFDO.isSome && (c.GetFDO.getD {}).ManufacturingServerURL == "") = true
  · rw [if_pos h5]; rfl
  rw [if_neg h5]
  by_cases h6 : (t.bootISO && t.rpmOstree && t.name == "edge-simplified-installer" &&
      c.GetFDO.isSome && !((c.GetFDO.getD {}).diunSetCount == 1)) = true
  · rw [if_pos h6]; rfl
  rw [if_neg h6]
  by_cases h7 : (t.bootISO && t.rpmOstree && t.name == "edge-installer" &&
      !(c.CheckAllowed ["User", "Group"])) = true
  · rw [if_pos h7]; rfl
  rw [if_neg h7]
  by_cases h8 : (t.name == "edge-raw-image" && o.OSTree.FetchChecksum == "") = true
  · rw [if_pos h8]; rfl
  rw [if_neg h8]
  by_cases h9 : (!(c.GetKernel.Append == "") && t.rpmOstree &&
      (!t.bootable || t.bootISO)) = true
  · rw [if_pos h9]; rfl
  rw [if_neg h9]
  have h10 : (c.GetFilesystems.isSome && t.rpmOstree) = true := by
    rw [hfs', hOst]; rfl
  rw [if_pos h10]; rfl

/-- C6 witness: the registered Rocky commit type with a custom mountpoint is
rejected under a policy that does not even allow the mountpoint, i.e. the
rejection does not come from the policy. -/
theorem ostree_rejects_custom_mountpoints_witness :
    (rockyCommitRegistered.checkOptions ["/"]
      { Filesystem := some [{ Mountpoint := "/data" }] } {} []).isOk = false :=
  ostree_rejects_custom_mountpoints rockyCommitRegistered
    { Filesystem := some [{ Mountpoint := "/data" }] } {} []
    [{ Mountpoint := "/data" }] ["/"] rfl rfl

-- ### claim C5: the simplified-installer rule block

/-- C5: for a boot-ISO OSTree image type named "edge-simplified-installer"
with a resolved checksum and no embedded containers, checkOptions
- errors when a customization outside the InstallationDevice/FDO allow-list
  is set,
- errors when no installation device is given,
- errors when an FDO block is present without a manufacturing server URL,
- errors when an FDO block with a URL sets a number of trust-anchor fields
  different from one, and
- succeeds when exactly one trust-anchor field, a URL and an installation
  device are given and nothing else is customized. -/
theorem simplified_installer_rules
    (t : imageType) (o : ImageOptions) (policy : List String)
    (hname : t.name = "edge-simplified-installer")
    (hiso : t.bootISO = true) (host : t.rpmOstree = true)
    (hchk : o.OSTree.FetchChecksum ≠ "") :
    (∀ c : Customizations, c.CheckAllowed ["InstallationDevice", "FDO"] = false →
      (t.checkOptions policy c o []).isOk = false) ∧
    (∀ c : Customizations, c.GetInstallationDevice = "" →
      (t.checkOptions policy c o []).isOk = false) ∧
    (∀ (c : Customizations) (f : FDOCustomization), c.GetFDO = some f →
      f.ManufacturingServerURL = "" →
      (t.checkOptions policy c o []).isOk = false) ∧
    (∀ (c : Customizations) (f : FDOCustomization), c.GetFDO = some f →
      f.ManufacturingServerURL ≠ "" → f.diunSetCount ≠ 1 →
      (t.checkOptions policy c o []).isOk = false) ∧
    (∀ (d : String) (f : FDOCustomization), d ≠ "" →
      f.ManufacturingServerURL ≠ "" → f.diunSetCount = 1 →
      t.checkOptions policy { InstallationDevice := d, FDO := some f } o [] = .ok ()) := by
  refine ⟨?_, ?_, ?_, ?_, ?_⟩
  · intro c hca
    have e1 : ¬((0 < ([] : List ContainerSpec).length && t.rpmOstree &&
        !(t.name == "edge-commit") && !(t.name == "edge-container")) = true) := by simp
    have e2 : ¬((t.bootISO && t.rpmOstree && o.OSTree.FetchChecksum == "") = true) := by
      simp [hchk]
    have e3 : (t.bootISO && t.rpmOstree && t.name == "edge-simplified-installer" &&
        !(c.CheckAllowed ["InstallationDevice", "FDO"])) = true := by
      simp [hiso, host, hname, hca]
    delta imageType.checkOptions
    rw [if_neg e1, if_neg e2, if_pos e3]
    rfl
  · intro c hdev
    have e1 : ¬((0 < ([] : List ContainerSpec).length && t.rpmOstree &&
        !(t.name == "edge-commit") && !(t.name == "edge-container")) = true) := by simp
    have e2 : ¬((t.bootISO && t.rpmOstree && o.OSTree.FetchChecksum == "") = true) := by
      simp [hchk]
    delta imageType.checkOptions
    rw [if_neg e1, if_neg e2]
    by_cases e3 : (t.bootISO && t.rpmOstree && t.name == "edge-simplified-installer" &&
        !(c.CheckAllowed ["InstallationDevice", "FDO"])) = true
    · rw [if_pos e3]; rfl
    rw [if_neg e3]
    have e4 : (t.bootISO && t.rpmOstree && t.name == "edge-simplified-installer" &&
        c.GetInstallationDevice == "") = true := by
      simp [hiso, host, hname, hdev]
    rw [if_pos e4]
    rfl
  · intro c f hf hurl
    have e1 : ¬((0 < ([] : List ContainerSpec).length && t.rpmOstree &&
        !(t.name == "edge-commit") && !(t.name == "edge-container")) = true) := by simp
    have e2 : ¬((t.bootISO && t.rpmOstree && o.OSTree.FetchChecksum == "") = true) := by
      simp [hchk]
    delta imageType.checkOptions
    rw [if_neg e1, if_neg e2]
    by_cases e3 : (t.bootISO && t.rpmOstree && t.name == "edge-simplified-installer" &&
        !(c.CheckAllowed ["InstallationDevice", "FDO"])) = true
    · rw [if_pos e3]; rfl
    rw [if_neg e3]
    by_cases e4 : (t.bootISO && t.rpmOstree && t.name == "edge-simplified-installer" &&
        c.GetInstallationDevice == "") = true
    · rw [if_pos e4]; rfl
    rw [if_neg e4]
    have e5 : (t.bootISO && t.rpmOstree && t.name == "edge-simplified-installer" &&
        c.GetFDO.isSome && (c.GetFDO.getD {}).ManufacturingServerURL == "") = true := by
      simp [hiso, host, hname, hf, hurl]
    rw [if_pos e5]
    rfl
  · intro c f hf hurl hdiun
    have e1 : ¬((0 < ([] : List ContainerSpec).length && t.rpmOstree &&
        !(t.name == "edge-commit") && !(t.name == "edge-container")) = true) := by simp
    have e2 : ¬((t.bootISO && t.rpmOstree && o.OSTree.FetchChecksum == "") = true) := by
      simp [hchk]
    delta imageType.checkOptions
    rw [if_neg e1, if_neg e2]
    by_cases e3 : (t.bootISO && t.rpmOstree && t.name == "edge-simplified-installer" &&
        !(c.CheckAllowed ["InstallationDevice", "FDO"])) = true
    · rw [if_pos e3]; rfl
    rw [if_neg e3]
    by_cases e4 : (t.bootISO && t.rpmOstree && t.name == "edge-simplified-installer" &&
        c.GetInstallationDevice == "") = true
    · rw [if_pos e4]; rfl
    rw [if_neg e4]
    have e5 : ¬((t.bootISO && t.rpmOstree && t.name == "edge-simplified-installer" &&
        c.GetFDO.isSome && (c.GetFDO.getD {}).ManufacturingServerURL == "") = true) := by
      simp [hf, hurl]
    rw [if_neg e5]
    have e6 : (t.bootISO && t.rpmOstree && t.name == "edge-simplified-installer" &&
        c.GetFDO.isSome && !((c.GetFDO.getD {}).diunSetCount == 1)) = true := by
      simp [hiso, host, hname, hf, hdiun]
    rw [if_pos e6]
    rfl
  · intro d f hd hurl hdiun
    have e1 : ¬((0 < ([] : List ContainerSpec).length && t.rpmOstree &&
        !(t.name == "edge-commit") && !(t.name == "edge-container")) = true) := by simp
    have e2 : ¬((t.bootISO && t.rpmOstree && o.OSTree.FetchChecksum == "") = true) := by
      simp [hchk]
    have e3 : ¬((t.bootISO && t.rpmOstree && t.name == "edge-simplified-installer" &&
        !((({ InstallationDevice := d, FDO := some f } : Customizations)).CheckAllowed
          ["InstallationDevice", "FDO"])) = true) := by
      simp [Customizations.CheckAllowed, Customizations.setFieldNames, hd]
    have e4 : ¬((t.bootISO && t.rpmOstree && t.name == "edge-simplified-installer" &&
        (({ InstallationDevice := d, FDO := some f } : Customizations)).GetInstallationDevice
          == "") = true) := by
      simp [Customizations.GetInstallationDevice, hd]
    have e5 : ¬((t.bootISO && t.rpmOstree && t.name == "edge-simplified-installer" &&
        (({ InstallationDevice := d, FDO := some f } : Customizations)).GetFDO.isSome &&
        ((({ InstallationDevice := d, FDO := some f } : Customizations)).GetFDO.getD
          {}).ManufacturingServerURL == "") = true) := by
      simp [Customizations.GetFDO, hurl]
    have e6 : ¬((t.bootISO && t.rpmOstree && t.name == "edge-simplified-installer" &&
        (({ InstallationDevice := d, FDO := some f } : Customizations)).GetFDO.isSome &&
        !(((({ InstallationDevice := d, FDO := some f } : Customizations)).GetFDO.getD
          {}).diunSetCount == 1)) = true) := by
      simp [Customizations.GetFDO, hdiun]
    have e7 : ¬((t.bootISO && t.rpmOstree && t.name == "edge-installer" &&
        !((({ InstallationDevice := d, FDO := some f } : Customizations)).CheckAllowed
          ["User", "Group"])) = true) := by
      rw [hiso, host, hname]; exact fun h => Bool.noConfusion h
    have e8 : ¬((t.name == "edge-raw-image" && o.OSTree.FetchChecksum == "") = true) := by
      rw [hname]; exact fun h => Bool.noConfusion h
    have e9 : ¬((!((({ InstallationDevice := d, FDO := some f } :
        Customizations)).GetKernel.Append == "") && t.rpmOstree &&
        (!t.bootable || t.bootISO)) = true) :=
      fun h => Bool.noConfusion h
    have e10 : ¬(((({ InstallationDevice := d, FDO := some f} :
        Customizations)).GetFilesystems.isSome && t.rpmOstree) = true) :=
      fun h => Bool.noConfusion h
    delta imageType.checkOptions
    rw [if_neg e1, if_neg e2, if_neg e3, if_neg e4, if_neg e5, if_neg e6, if_neg e7,
      if_neg e8, if_neg e9, if_neg e10]
    rfl

/-- A concrete image type of the simplified-installer shape (boot-ISO,
OSTree, bootable) for witness evaluations; this repository registers no such
type, the claim is about the validator's rule block. -/
def edgeSimplifiedTestType : imageType :=
  { name := "edge-simplified-installer", bootISO := true, rpmOstree := true,
    bootable := true }

/-- C5 witness: with two trust-anchor fields set the validator errors; with
exactly one plus an installation device it succeeds. -/
theorem simplified_installer_rules_witness :
    (edgeSimplifiedTestType.checkOptions []
      { InstallationDevice := "/dev/sda",
        FDO := some { ManufacturingServerURL := "https://fdo.example.com",
                      DiunPubKeyHash := "ab12", DiunPubKeyInsecure := "1" } }
      { OSTree := { FetchChecksum := "b3e0383d" } } []).isOk = false ∧
    edgeSimplifiedTestType.checkOptions []
      { InstallationDevice := "/dev/sda",
        FDO := some { ManufacturingServerURL := "https://fdo.example.com",
                      DiunPubKeyHash := "ab12" } }
      { OSTree := { FetchChecksum := "b3e0383d" } } [] = .ok () := by
  have h := simplified_installer_rules edgeSimplifiedTestType
    { OSTree := { FetchChecksum := "b3e0383d" } } [] rfl rfl rfl (by decide)
  constructor
  · exact h.2.2.2.1
      { InstallationDevice := "/dev/sda",
        FDO := some { ManufacturingServerURL := "https://fdo.example.com",
                      DiunPubKeyHash := "ab12", DiunPubKeyInsecure := "1" } }
      { ManufacturingServerURL := "https://fdo.example.com",
        DiunPubKeyHash := "ab12", DiunPubKeyInsecure := "1" }
      rfl (by decide) (by decide)
  · exact h.2.2.2.2 "/dev/sda"
      { ManufacturingServerURL := "https://fdo.example.com", DiunPubKeyHash := "ab12" }
      (by decide) (by decide) (by decide)

-- ### claim C3: alias resolution and not-found behavior

/-- C3: on every architecture, looking an image type up through a registered
alias that is not itself a canonical name yields exactly the image-type
object of its canonical name, and looking up a name that is neither a
canonical name nor an alias yields the not-found error (no panic). -/
theorem getImageType_alias_and_notfound (a : architecture) :
    (∀ al cn : String, a.imageTypeAliases.lookup al = some cn →
      a.imageTypes.lookup al = none → (a.imageTypes.lookup cn).isSome = true →
      a.GetImageType al = a.GetImageType cn) ∧
    (∀ name : String, a.imageTypes.lookup name = none →
      a.imageTypeAliases.lookup name = none →
      a.GetImageType name = .notFound ("invalid image type: " ++ name)) := by
  constructor
  · intro al cn h1 h2 h3
    obtain ⟨tt, hcn⟩ := Option.isSome_iff_exists.mp h3
    unfold architecture.GetImageType
    rw [h2, h1]
    simp only [hcn]
  · intro name h1 h2
    unfold architecture.GetImageType
    rw [h1, h2]

/-- C3 witness: on the registered Rocky x86_64 architecture the alias
"scos-rocky-commit" resolves to the same object as "ostree-commit", and an
unknown name produces the not-found error. -/
theorem getImageType_alias_and_notfound_witness :
    rockyX86.GetImageType "scos-rocky-commit" = rockyX86.GetImageType "ostree-commit" ∧
    rockyX86.GetImageType "bogus" = .notFound ("invalid image type: " ++ "bogus") := by
  have h := getImageType_alias_and_notfound rockyX86
  exact ⟨h.1 "scos-rocky-commit" "ostree-commit" rfl rfl rfl, h.2 "bogus" rfl rfl⟩

-- ### claim C10: addImageTypes never produces dangling aliases

/-- Lookup after a Go-map insert: the inserted key wins, everything else is
unchanged. -/
theorem alistInsert_lookup {α : Type} (l : List (String × α)) (k k2 : String) (v : α) :
    (alistInsert l k v).lookup k2 = if k2 = k then some v else l.lookup k2 := by
  induction l with
  | nil =>
    by_cases h : k2 = k
    · simp [alistInsert, List.lookup, h]
    · have hb : (k2 == k) = false := beq_eq_false_iff_ne.mpr h
      simp [alistInsert, List.lookup, hb, h]
  | cons p rest ih =>
    obtain ⟨k3, v3⟩ := p
    by_cases h1 : k3 = k
    · subst h1
      by_cases h2 : k2 = k3
      · simp [alistInsert, List.lookup, h2]
      · have hb : (k2 == k3) = false := beq_eq_false_iff_ne.mpr h2
        simp [alistInsert, List.lookup, hb, h2]
    · have hb1 : (k3 == k) = false := beq_eq_false_iff_ne.mpr h1
      by_cases h2 : k2 = k3
      · subst h2
        simp [alistInsert, List.lookup, hb1, h1, Ne.symm h1]
      · have hb2 : (k2 == k3) = false := beq_eq_false_iff_ne.mpr h2
        simp [alistInsert, List.lookup, hb1, hb2, h2, ih]

/-- Alias consistency of an architecture: every registered alias maps to a
canonical image-type name present in the image-type map. -/
def architecture.aliasesConsistent (a : architecture) : Prop :=
  ∀ al cn, a.imageTypeAliases.lookup al = some cn →
    (a.imageTypes.lookup cn).isSome = true

/-- The alias map an architecture ends up with after addAliases: the
image-type map is untouched, and every alias entry either pre-existed or
points at the type name being registered. -/
theorem addAliases_spec (tn : String) (als : List String) :
    ∀ (a a2 : architecture), a.addAliases tn als = .ok a2 →
    a2.imageTypes = a.imageTypes ∧
    (∀ al cn, a2.imageTypeAliases.lookup al = some cn →
      a.imageTypeAliases.lookup al = some cn ∨ cn = tn) := by
  induction als with
  | nil =>
    intro a a2 h
    cases h
    exact ⟨rfl, fun al cn h => .inl h⟩
  | cons al rest ih =>
    intro a a2 h
    unfold architecture.addAliases at h
    by_cases hdup : ((a.imageTypeAliases.lookup al).isSome = true)
    · rw [if_pos hdup] at h
      exact absurd h (by simp)
    · rw [if_neg hdup] at h
      obtain ⟨h1, h2⟩ := ih _ _ h
      refine ⟨h1, ?_⟩
      intro al2 cn hl
      rcases h2 al2 cn hl with h3 | h3
      · rw [alistInsert_lookup] at h3
        by_cases he : al2 = al
        · rw [if_pos he] at h3
          exact .inr (Option.some_injective _ h3).symm
        · rw [if_neg he] at h3
          exact .inl h3
      · exact .inr h3

/-- The key just inserted into an association list is present. -/
theorem alistInsert_lookup_self {α : Type} (l : List (String × α)) (k : String) (v : α) :
    ((alistInsert l k v).lookup k).isSome = true := by
  rw [alistInsert_lookup, if_pos rfl]
  rfl

/-- Keys present in an association list survive a Go-map insert. -/
theorem alistInsert_lookup_isSome {α : Type} (l : List (String × α)) (k k2 : String)
    (v : α) (h : (l.lookup k2).isSome = true) :
    ((alistInsert l k v).lookup k2).isSome = true := by
  rw [alistInsert_lookup]
  by_cases he : k2 = k
  · rw [if_pos he]; rfl
  · rw [if_neg he]; exact h

/-- Registering one image type preserves alias consistency: the type itself
is inserted before its aliases, so every new alias resolves. -/
theorem addOneImageType_consistent (a a2 : architecture) (p : PlatformInfo)
    (it : imageType) (h : a.addOneImageType p it = .ok a2)
    (hcons : a.aliasesConsistent) : a2.aliasesConsistent := by
  unfold architecture.addOneImageType at h
  obtain ⟨hTy, hAl⟩ := addAliases_spec _ _ _ _ h
  intro al cn hl
  rw [hTy]
  rcases hAl al cn hl with h3 | h3
  · exact alistInsert_lookup_isSome _ _ _ _ (hcons al cn h3)
  · subst h3
    exact alistInsert_lookup_self _ _ _

/-- The registration loop preserves alias consistency. -/
theorem addImageTypes_consistent (p : PlatformInfo) :
    ∀ (its : List imageType) (a0 a : architecture),
      a0.addImageTypes p its = .ok a → a0.aliasesConsistent →
      a.aliasesConsistent := by
  intro its
  induction its with
  | nil =>
    intro a0 a hok hc
    cases hok
    exact hc
  | cons it rest ih =>
    intro a0 a hok hc
    unfold architecture.addImageTypes at hok
    cases hone : a0.addOneImageType p it with
    | error e =>
      rw [hone] at hok
      exact absurd hok (by simp)
    | ok a2 =>
      rw [hone] at hok
      exact ih a2 a hok (addOneImageType_consistent a0 a2 p it hone hc)

/-- C10: an architecture populated exclusively through addImageTypes from an
alias-consistent start (such as the empty architectures of the Rocky and
OpenEuler constructors) has every alias mapping to a present canonical name,
so the dangling-alias panic branch of GetImageType is unreachable. -/
theorem addImageTypes_aliases_never_dangle
    (its : List imageType) (p : PlatformInfo) (a0 a : architecture)
    (hok : a0.addImageTypes p its = .ok a)
    (hcons : a0.aliasesConsistent) :
    a.aliasesConsistent ∧ (∀ name, (a.GetImageType name).isPanicked = false) := by
  have main : a.aliasesConsistent := addImageTypes_consistent p its a0 a hok hcons
  refine ⟨main, ?_⟩
  intro name
  unfold architecture.GetImageType
  cases hn : a.imageTypes.lookup name with
  | some tt => rfl
  | none =>
    cases ha : a.imageTypeAliases.lookup name with
    | none => rfl
    | some cn =>
      obtain ⟨tt, htt⟩ := Option.isSome_iff_exists.mp (main name cn ha)
      simp only [htt]
      rfl

/-- C10 witness: the Rocky x86_64 architecture is built from the empty alias
map by addImageTypes alone, so no lookup on it can panic. -/
theorem addImageTypes_aliases_never_dangle_witness :
    (rockyX86.GetImageType "nonexistent-type").isPanicked = false := by
  have h := addImageTypes_aliases_never_dangle
    [scosRockyCommitImgType, scosRockyOCIImgType] platX86 rockyX86Start rockyX86
    rfl (by intro al cn h; simp [List.lookup] at h)
  exact h.2 "nonexistent-type"

-- ### claim C2: os default and the missing-build panic

/-- A legacy-path image type without a build package set: registration
accepts it, package-set resolution panics on it. -/
def legacyNoBuildType : imageType :=
  { name := "legacy-no-build", packageSets := [(osPkgsKey, {})] }

/-- A legacy-path image type with a build package set and no os set. -/
def legacyWithBuildType : imageType :=
  { name := "legacy-test", packageSets := [(buildPkgsKey, { Include := ["make"] })] }

/-- Lookup success is preserved by rewriting every value of an association
list in place. -/
theorem lookup_map_snd {α β : Type} (l : List (String × α)) (f : String → α → β)
    (k : String) :
    ((l.map (fun p => (p.1, f p.1 p.2))).lookup k).isSome = (l.lookup k).isSome := by
  induction l with
  | nil => rfl
  | cons p rest ih =>
    obtain ⟨k2, v⟩ := p
    cases hb : k == k2 <;> simp [List.lookup, hb, ih]

/-- Filtering on non-membership in the empty list keeps every element. -/
theorem filter_not_contains_nil {α : Type} (l : List (String × α)) :
    l.filter (fun p => !(([] : List String).contains p.1)) = l := by
  induction l with
  | nil => rfl
  | cons p rest ih => simp [List.filter, ih]

/-- For an image type that declares no package-set chains,
MakePackageSetChains keeps exactly the keys of the merged set map. -/
theorem makeChains_no_chain_lookup (t : imageType) (hch : t.packageSetChains = [])
    (sets : List (String × PackageSet)) (repos : List RepoConfig) (k : String) :
    ((MakePackageSetChains t sets repos).lookup k).isSome = (sets.lookup k).isSome := by
  unfold MakePackageSetChains
  rw [hch]
  simp only [List.map_nil, List.foldl_nil, List.nil_append]
  rw [filter_not_contains_nil]
  exact lookup_map_snd sets (fun k2 v => [attachRepos k2 v repos]) k

/-- The merged package-set map always carries the os package set, because the
final step inserts the blueprint kernel into it. -/
theorem mergedPackageSets_os_isSome (t : imageType) (bp : Blueprint) :
    (((t.mergedPackageSets bp).lookup osPkgsKey).isSome = true) :=
  alistInsert_lookup_self _ _ _

/-- A successful association-list lookup exhibits a member. -/
theorem lookup_mem {α : Type} :
    ∀ (l : List (String × α)) (k : String) (v : α),
      l.lookup k = some v → (k, v) ∈ l := by
  intro l
  induction l with
  | nil => intro k v h; cases h
  | cons p rest ih =>
    intro k v h
    obtain ⟨k2, v2⟩ := p
    cases hb : k == k2 with
    | true =>
      have hk : k = k2 := by simpa using hb
      subst hk
      simp [List.lookup, hb] at h
      subst h
      exact List.mem_cons_self _ _
    | false =>
      simp [List.lookup, hb] at h
      exact List.mem_cons_of_mem _ (ih k v h)

/-- Membership in the fold that collects all declared chain members. -/
theorem mem_foldl_append (chains : List (String × List String)) :
    ∀ (init : List String) (x : String),
      (x ∈ chains.foldl (fun acc nc => acc ++ nc.2) init ↔
        x ∈ init ∨ ∃ nc ∈ chains, x ∈ nc.2) := by
  induction chains with
  | nil => intro init x; simp
  | cons q rest ih =>
    intro init x
    simp only [List.foldl_cons]
    rw [ih (init ++ q.2) x]
    constructor
    · rintro (h | h)
      · rcases List.mem_append.mp h with h | h
        · exact .inl h
        · exact .inr ⟨q, List.mem_cons_self _ _, h⟩
      · obtain ⟨nc, hnc, hx⟩ := h
        exact .inr ⟨nc, List.mem_cons_of_mem _ hnc, hx⟩
    · rintro (h | ⟨nc, hnc, hx⟩)
      · exact .inl (List.mem_append.mpr (.inl h))
      · rcases List.mem_cons.mp hnc with rfl | hnc
        · exact .inl (List.mem_append.mpr (.inr hx))
        · exact .inr ⟨nc, hnc, hx⟩

/-- Whether some entry of a resolution result carries the given package set
in its chain. -/
def carriesPackageSet (r : List (String × List PackageSet)) (ps : PackageSet) : Bool :=
  r.any (fun p => p.2.any (fun s => s == ps))

theorem carriesPackageSet_iff (r : List (String × List PackageSet)) (ps : PackageSet) :
    carriesPackageSet r ps = true ↔ ∃ p ∈ r, ps ∈ p.2 := by
  unfold carriesPackageSet
  rw [List.any_eq_true]
  constructor
  · rintro ⟨p, hp, hin⟩
    rw [List.any_eq_true] at hin
    obtain ⟨s, hs, hbeq⟩ := hin
    exact ⟨p, hp, (beq_iff_eq.mp hbeq) ▸ hs⟩
  · rintro ⟨p, hp, hin⟩
    exact ⟨p, hp, List.any_eq_true.mpr ⟨ps, hin, beq_iff_eq.mpr rfl⟩⟩

/-- MakePackageSetChains never drops a merged set: every set of the merged
map reappears in the result — as its own singleton chain when no declared
chain consumes its name, and inside the consuming chain otherwise. -/
theorem makeChains_carries (t : imageType) (sets : List (String × PackageSet))
    (repos : List RepoConfig) (k : String) (v : PackageSet)
    (hk : sets.lookup k = some v) :
    carriesPackageSet (MakePackageSetChains t sets repos)
      (attachRepos k v repos) = true := by
  rw [carriesPackageSet_iff]
  unfold MakePackageSetChains
  by_cases hcon : k ∈ t.packageSetChains.foldl (fun acc nc => acc ++ nc.2) []
  · obtain ⟨nc, hnc, hkmem⟩ :=
      ((mem_foldl_append t.packageSetChains [] k).mp hcon).resolve_left (by simp)
    refine ⟨(nc.1, nc.2.map (fun cs => attachRepos cs ((sets.lookup cs).getD {}) repos)),
      ?_, ?_⟩
    · exact List.mem_append_left _ (List.mem_map_of_mem _ hnc)
    · have he : attachRepos k ((sets.lookup k).getD {}) repos = attachRepos k v repos := by
        rw [hk]
        rfl
      rw [← he]
      exact List.mem_map_of_mem _ hkmem
  · have hmem : (k, v) ∈ sets := lookup_mem sets k v hk
    have hcb : ((t.packageSetChains.foldl (fun acc nc => acc ++ nc.2) []).contains k)
        = false := by
      simp only [List.contains, List.elem_eq_mem]
      simpa using hcon
    refine ⟨(k, [attachRepos k v repos]), ?_, List.mem_singleton.mpr rfl⟩
    refine List.mem_append_right _ ?_
    refine List.mem_map.mpr ⟨(k, v), ?_, rfl⟩
    exact List.mem_filter.mpr ⟨hmem, by rw [hcb]; rfl⟩

/-- A legacy-path image type whose os set is consumed by a declared
package-set chain keyed under a different name. -/
def legacyChainType : imageType :=
  { name := "legacy-chain"
    packageSets := [(buildPkgsKey, {}), (osPkgsKey, { Include := ["base"] })]
    packageSetChains := [("payload", [osPkgsKey, blueprintPkgsKey])] }

/-- C2 (amended): legacy package-set resolution always guarantees the os
package set: the merged set map always contains it (defaulting to the empty
set when the image type declares none), and the returned chain map always
carries it — as its own entry when the image type declares no package-set
chains, and inside the consuming declared chain otherwise.  The absence of a
build package set is a fatal panic raised when PackageSets is invoked —
resolution time, not catalog construction, and never a recoverable error
value. -/
theorem packageSets_os_default_and_build_panic (t : imageType) (bp : Blueprint)
    (repos : List RepoConfig) :
    ((t.packageSets.lookup buildPkgsKey).isSome = true →
      (t.packageSetsLegacy bp repos).isOk = true ∧
      carriesPackageSet ((t.packageSetsLegacy bp repos).toOption.getD [])
        (attachRepos osPkgsKey
          (((t.mergedPackageSets bp).lookup osPkgsKey).getD {}) repos) = true) ∧
    (((t.mergedPackageSets bp).lookup osPkgsKey).isSome = true) ∧
    ((t.packageSets.lookup buildPkgsKey).isSome = true → t.packageSetChains = [] →
      ((((t.packageSetsLegacy bp repos).toOption.getD []).lookup osPkgsKey).isSome
        = true)) ∧
    (t.packageSets.lookup buildPkgsKey = none →
      t.packageSetsLegacy bp repos =
        .error ("\x27" ++ t.name ++ "\x27 image type has no \x27" ++ buildPkgsKey ++
          "\x27 package set defined")) := by
  have hbuildcase : ∀ hb : (t.packageSets.lookup buildPkgsKey).isSome = true,
      ¬((t.packageSets.lookup buildPkgsKey).isNone = true) := by
    intro hb
    cases ho : t.packageSets.lookup buildPkgsKey with
    | none => rw [ho] at hb; exact absurd hb (by simp)
    | some ps => simp
  refine ⟨?_, mergedPackageSets_os_isSome t bp, ?_, ?_⟩
  · intro hb
    have hcond := hbuildcase hb
    unfold imageType.packageSetsLegacy
    rw [if_neg hcond]
    refine ⟨rfl, ?_⟩
    show carriesPackageSet (MakePackageSetChains t (t.mergedPackageSets bp) repos)
      (attachRepos osPkgsKey
        (((t.mergedPackageSets bp).lookup osPkgsKey).getD {}) repos) = true
    obtain ⟨v, hv⟩ := Option.isSome_iff_exists.mp (mergedPackageSets_os_isSome t bp)
    rw [hv]
    show carriesPackageSet (MakePackageSetChains t (t.mergedPackageSets bp) repos)
      (attachRepos osPkgsKey v repos) = true
    exact makeChains_carries t (t.mergedPackageSets bp) repos osPkgsKey v hv
  · intro hb hch
    have hcond := hbuildcase hb
    unfold imageType.packageSetsLegacy
    rw [if_neg hcond]
    show (((some (MakePackageSetChains t (t.mergedPackageSets bp) repos)).getD
      []).lookup osPkgsKey).isSome = true
    rw [Option.getD_some, makeChains_no_chain_lookup t hch]
    exact mergedPackageSets_os_isSome t bp
  · intro hb
    have hcond : ((t.packageSets.lookup buildPkgsKey).isNone = true) := by
      rw [hb]; rfl
    unfold imageType.packageSetsLegacy
    rw [if_pos hcond]

/-- C2 counterexample: the claim locates the missing-build check at
catalog-construction time, but addImageTypes happily registers an image type
with no build package set; the defect only surfaces as a panic when the
legacy package-set resolution runs. -/
theorem missing_build_not_detected_at_registration :
    (({ name := "x86_64" } : architecture).addImageTypes platX86
      [legacyNoBuildType]).isOk = true ∧
    legacyNoBuildType.packageSets.lookup buildPkgsKey = none ∧
    legacyNoBuildType.image = none ∧
    (legacyNoBuildType.packageSetsLegacy {} []).isOk = false :=
  ⟨rfl, rfl, rfl, rfl⟩

/-- C2 witness: a legacy image type with a build set resolves successfully
and its result keeps the os package set as its own entry; on a type whose
declared chain consumes the os set, the result still carries it inside that
chain; a type without a build set panics. -/
theorem packageSets_os_default_and_build_panic_witness :
    (legacyWithBuildType.packageSetsLegacy {} []).isOk = true ∧
    ((((legacyWithBuildType.packageSetsLegacy {} []).toOption.getD
      []).lookup osPkgsKey).isSome = true) ∧
    carriesPackageSet ((legacyChainType.packageSetsLegacy {} []).toOption.getD [])
      (attachRepos osPkgsKey
        (((legacyChainType.mergedPackageSets {}).lookup osPkgsKey).getD {}) [])
      = true ∧
    (legacyNoBuildType.packageSetsLegacy {} []).isOk = false := by
  have hW := packageSets_os_default_and_build_panic legacyWithBuildType {} []
  have hC := packageSets_os_default_and_build_panic legacyChainType {} []
  have hN := packageSets_os_default_and_build_panic legacyNoBuildType {} []
  exact ⟨(hW.1 rfl).1, hW.2.2.1 rfl rfl, (hC.1 rfl).2, by rw [hN.2.2.2 rfl]; rfl⟩

-- ### claim C4: no LVM on ostree images

/-- Membership characterization of the blueprint-derived package list: the
resolution step only ever adds chrony (timezone), lvm2 (new mountpoint on a
non-ostree image) and the two OpenSCAP packages on top of the blueprint's own
packages. -/
theorem bpPackages_mem (t : imageType) (bp : Blueprint) (x : String) :
    x ∈ t.bpPackages bp ↔
      (x ∈ bp.Packages ∨
       (bp.Custom.GetTimezoneSettings.isSome = true ∧ x = "chrony") ∨
       (t.rpmOstree = false ∧ t.haveNewMountpoint bp = true ∧ x = "lvm2") ∨
       ((bp.Custom.GetOpenSCAP).isSome = true ∧
         (x = "openscap-scanner" ∨ x = "scap-security-guide"))) := by
  unfold imageType.bpPackages
  cases htz : bp.Custom.GetTimezoneSettings <;>
    cases hos : t.rpmOstree <;>
      cases hnm : t.haveNewMountpoint bp <;>
        cases hsc : bp.Custom.GetOpenSCAP <;>
          simp [htz, hos, hnm, hsc, List.mem_append, or_assoc] <;>
            tauto

/-- A non-ostree image type with a base partition table, for concrete lvmify
evaluations. -/
def qcowWithPT : imageType :=
  { name := "qcow2-test", archName := "x86_64",
    basePartitionTables := [("x86_64", { PtType := "gpt" })] }

/-- C4: package-set resolution adds lvm2 exactly on non-ostree images whose
blueprint introduces a new mountpoint (so for ostree image types lvm2 occurs
in the blueprint-derived packages only if the user listed it), and
getPartitionTable passes lvmify = false for ostree image types and
lvmify = true for non-ostree ones. -/
theorem ostree_never_lvm (t : imageType) (bp : Blueprint)
    (mp : List FilesystemCustomization) (o : ImageOptions) :
    (t.rpmOstree = true → ("lvm2" ∈ t.bpPackages bp ↔ "lvm2" ∈ bp.Packages)) ∧
    (t.rpmOstree = false →
      ("lvm2" ∈ t.bpPackages bp ↔
        ("lvm2" ∈ bp.Packages ∨ t.haveNewMountpoint bp = true))) ∧
    (∀ req : PartitionTableRequest, t.getPartitionTable mp o = .ok req →
      req.lvmify = !t.rpmOstree) := by
  refine ⟨?_, ?_, ?_⟩
  · intro hOst
    rw [bpPackages_mem]
    simp [hOst]
  · intro hOst
    rw [bpPackages_mem]
    simp [hOst]
  · intro req hreq
    unfold imageType.getPartitionTable at hreq
    cases hbt : t.basePartitionTables.lookup t.archName with
    | none =>
      rw [hbt] at hreq
      exact absurd hreq (by simp)
    | some bpt =>
      rw [hbt] at hreq
      injection hreq with h
      rw [← h]

/-- C4 witness: on the registered (ostree) Rocky commit type, a blueprint
with a new mountpoint does not pull in lvm2; on a non-ostree type,
getPartitionTable requests lvmify. -/
theorem ostree_never_lvm_witness :
    ¬("lvm2" ∈ rockyCommitRegistered.bpPackages
        { Packages := ["vim"],
          Custom := { Filesystem := some [{ Mountpoint := "/data" }] } }) ∧
    ({ basePT := { PtType := "gpt" }, mountpoints := [], imageSize := 0,
       lvmify := true } : PartitionTableRequest).lvmify = !qcowWithPT.rpmOstree := by
  constructor
  · intro hmem
    have h := (ostree_never_lvm rockyCommitRegistered
      { Packages := ["vim"],
        Custom := { Filesystem := some [{ Mountpoint := "/data" }] } } [] {}).1 rfl
    have hx : "lvm2" ∈ (["vim"] : List String) := h.mp hmem
    simp at hx
  · exact (ostree_never_lvm qcowWithPT {} [] {}).2.2 _ rfl

-- ### claim C8: manifest commit sources and version tag

/-- C8: a successfully assembled legacy manifest has version tag "2"; its
sources contain exactly one OSTree commit entry precisely when both the
fetch checksum and the URL are non-empty (built from those options), and any
commit entry carries the RHSM consumer-secrets reference exactly when the
RHSM flag is set. -/
theorem manifest_commit_sources_and_version
    (t : imageType) (policy : List String) (c : Customizations) (o : ImageOptions)
    (repos : List RepoConfig) (pkgs : List (String × List PackageSpec))
    (containers : List ContainerSpec) (seed : Nat) (m : OsbuildManifest)
    (hm : t.ManifestLegacy policy c o repos pkgs containers seed = .ok m) :
    m.Version = "2" ∧
    (o.OSTree.FetchChecksum ≠ "" ∧ o.OSTree.URL ≠ "" →
      m.Sources.commits =
        [{ Checksum := o.OSTree.FetchChecksum, URL := o.OSTree.URL,
           ContentURL := o.OSTree.ContentURL,
           Secrets := if o.OSTree.RHSM then "org.osbuild.rhsm.consumer" else "" }]) ∧
    (¬(o.OSTree.FetchChecksum ≠ "" ∧ o.OSTree.URL ≠ "") → m.Sources.commits = []) ∧
    (∀ commit ∈ m.Sources.commits,
      (commit.Secrets = "org.osbuild.rhsm.consumer" ↔ o.OSTree.RHSM = true)) := by
  unfold imageType.ManifestLegacy at hm
  cases hco : t.checkOptions policy c o containers with
  | error e => simp [hco] at hm
  | ok u =>
    simp only [hco] at hm
    cases hpf : t.pipelines with
    | none => simp [hpf] at hm
    | some pf =>
      simp only [hpf] at hm
      cases hpl : pf c o repos pkgs containers seed with
      | error e => simp [hpl] at hm
      | ok pipelines =>
        simp only [hpl] at hm
        have hm2 := Except.ok.inj hm
        subst hm2
        refine ⟨rfl, ?_, ?_, ?_⟩
        · intro hcu
          have hb : (!(o.OSTree.FetchChecksum == "") && !(o.OSTree.URL == "")) = true := by
            simp [hcu.1, hcu.2]
          simp [GenSources, hb]
        · intro hcu
          have hb : (!(o.OSTree.FetchChecksum == "") && !(o.OSTree.URL == "")) = false := by
            rcases not_and_or.mp hcu with h | h
            · simp [not_not.mp (fun hx => h hx)]
            · simp [not_not.mp (fun hx => h hx)]
          simp [GenSources, hb]
        · intro commit hc
          by_cases hb : (!(o.OSTree.FetchChecksum == "") && !(o.OSTree.URL == "")) = true
          · simp [GenSources, hb] at hc
            subst hc
            cases hrhsm : o.OSTree.RHSM <;> simp [hrhsm]
          · rw [Bool.not_eq_true] at hb
            simp [GenSources, hb] at hc

/-- A minimal legacy-path image type whose pipelines function succeeds with
an empty pipeline list, for concrete manifest evaluations. -/
def legacyManifestTestType : imageType :=
  { name := "qcow2-legacy", pipelines := some (fun _ _ _ _ _ _ => .ok []) }

/-- C8 witness: a legacy manifest assembled with a resolved OSTree
commit source and the RHSM flag carries version "2" and exactly that commit
entry with the consumer-secrets reference. -/
theorem manifest_commit_sources_and_version_witness :
    ({ Version := "2", Pipelines := [],
       Sources := GenSources []
         [{ Checksum := "ab12cd", URL := "https://ostree.example.com/repo",
            ContentURL := "", Secrets := "org.osbuild.rhsm.consumer" }] [] [] } :
      OsbuildManifest).Version = "2" ∧
    ({ Version := "2", Pipelines := [],
       Sources := GenSources []
         [{ Checksum := "ab12cd", URL := "https://ostree.example.com/repo",
            ContentURL := "", Secrets := "org.osbuild.rhsm.consumer" }] [] [] } :
      OsbuildManifest).Sources.commits =
      [{ Checksum := "ab12cd", URL := "https://ostree.example.com/repo",
         ContentURL := "", Secrets := "org.osbuild.rhsm.consumer" }] := by
  have h := manifest_commit_sources_and_version legacyManifestTestType [] {}
    { OSTree := { FetchChecksum := "ab12cd", URL := "https://ostree.example.com/repo",
                  RHSM := true } }
    [] [] [] 0
    { Version := "2", Pipelines := [],
      Sources := GenSources []
        [{ Checksum := "ab12cd", URL := "https://ostree.example.com/repo",
           ContentURL := "", Secrets := "org.osbuild.rhsm.consumer" }] [] [] }
    rfl
  exact ⟨h.1, (h.2.1 ⟨by decide, by decide⟩).trans (by simp)⟩

-- ### claim C9: the depsolve job is all-or-nothing

/-- When every requested set resolves, depsolve returns a map whose keys are
exactly the requested names in order, with each name bound to its resolved
specs. -/
theorem depsolveImpl_ok_of_all (solver : DepsolveSolver) (repos : List RepoConfig)
    (mpid arch relver : String) :
    ∀ sets : List (String × PackageSet),
      (∀ p ∈ sets, (solver p.2 repos mpid arch relver).isOk = true) →
      ∃ L, depsolveImpl solver sets repos mpid arch relver = .ok L ∧
        L.map Prod.fst = sets.map Prod.fst ∧
        (∀ p ∈ sets, ∀ specs, solver p.2 repos mpid arch relver = .ok specs →
          (p.1, specs) ∈ L) := by
  intro sets
  induction sets with
  | nil =>
    intro hall
    exact ⟨[], rfl, rfl, by simp⟩
  | cons q rest ih =>
    intro hall
    obtain ⟨name, ps⟩ := q
    have h1 := hall (name, ps) (by simp)
    cases hs : solver ps repos mpid arch relver with
    | error e => rw [hs] at h1; exact Bool.noConfusion h1
    | ok specs =>
      obtain ⟨L, hL, hmap, hmem⟩ := ih (fun p hp => hall p (List.mem_cons_of_mem _ hp))
      refine ⟨(name, specs) :: L, ?_, ?_, ?_⟩
      · unfold depsolveImpl
        rw [hs, hL]
      · simp [hmap]
      · intro p hp specs2 hsq
        rcases List.mem_cons.mp hp with h | h
        · subst h
          rw [hs] at hsq
          injection hsq with h2
          subst h2
          exact List.mem_cons_self _ _
        · exact List.mem_cons_of_mem _ (hmem p h specs2 hsq)

/-- If any requested set fails to resolve, depsolve returns an error. -/
theorem depsolveImpl_err_of_any (solver : DepsolveSolver) (repos : List RepoConfig)
    (mpid arch relver : String) :
    ∀ sets : List (String × PackageSet),
      (∃ p ∈ sets, (solver p.2 repos mpid arch relver).isOk = false) →
      ∃ e, depsolveImpl solver sets repos mpid arch relver = .error e := by
  intro sets
  induction sets with
  | nil =>
    rintro ⟨p, hp, _⟩
    simp at hp
  | cons q rest ih =>
    rintro ⟨p, hp, hbad⟩
    obtain ⟨name, ps⟩ := q
    cases hs : solver ps repos mpid arch relver with
    | error e =>
      refine ⟨e, ?_⟩
      unfold depsolveImpl
      rw [hs]
    | ok specs =>
      rcases List.mem_cons.mp hp with h | h
      · subst h
        rw [hs] at hbad
        exact Bool.noConfusion hbad
      · obtain ⟨e, he⟩ := ih ⟨p, h, hbad⟩
        refine ⟨e, ?_⟩
        unfold depsolveImpl
        rw [hs, he]

/-- C9: when every requested package set resolves, the depsolve job result
maps exactly the requested names (none absent) to their resolved spec lists
with an empty error string; when any package set fails, the result carries
the error string of the failing resolution and no package specs at all. -/
theorem depsolve_all_or_nothing (solver : DepsolveSolver) (args : DepsolveJob) :
    ((∀ p ∈ args.PackageSetsReq,
        (solver p.2 args.Repos args.ModulePlatformID args.Arch args.Releasever).isOk
          = true) →
      (depsolveRun solver args).ErrorStr = "" ∧
      (depsolveRun solver args).PackageSpecs.isSome = true ∧
      ((depsolveRun solver args).PackageSpecs.getD []).map Prod.fst =
        args.PackageSetsReq.map Prod.fst ∧
      (∀ p ∈ args.PackageSetsReq, ∀ specs,
        solver p.2 args.Repos args.ModulePlatformID args.Arch args.Releasever
          = .ok specs →
        (p.1, specs) ∈ (depsolveRun solver args).PackageSpecs.getD [])) ∧
    ((∃ p ∈ args.PackageSetsReq,
        (solver p.2 args.Repos args.ModulePlatformID args.Arch args.Releasever).isOk
          = false) →
      (depsolveRun solver args).PackageSpecs = none) ∧
    (∀ e, depsolveImpl solver args.PackageSetsReq args.Repos args.ModulePlatformID
        args.Arch args.Releasever = .error e →
      depsolveRun solver args = { PackageSpecs := none, ErrorStr := e }) := by
  refine ⟨?_, ?_, ?_⟩
  · intro hall
    obtain ⟨L, hL, hmap, hmem⟩ := depsolveImpl_ok_of_all solver args.Repos
      args.ModulePlatformID args.Arch args.Releasever args.PackageSetsReq hall
    unfold depsolveRun
    rw [hL]
    exact ⟨rfl, rfl, hmap, fun p hp specs hsq => hmem p hp specs hsq⟩
  · intro hbad
    obtain ⟨e, he⟩ := depsolveImpl_err_of_any solver args.Repos
      args.ModulePlatformID args.Arch args.Releasever args.PackageSetsReq hbad
    unfold depsolveRun
    rw [he]
  · intro e he
    unfold depsolveRun
    rw [he]

/-- A test solver that fails exactly on package sets requesting "badpkg". -/
def testSolver : DepsolveSolver := fun ps _ _ _ _ =>
  if ps.Include.contains "badpkg" then .error "depsolve failure"
  else .ok [{ Name := "resolved-1.0" }]

/-- C9 witness: a two-set request resolves to a map with exactly the two
requested names; a request with a failing set yields no package specs. -/
theorem depsolve_all_or_nothing_witness :
    (depsolveRun testSolver
      { PackageSetsReq := [("build", { Include := ["make"] }), ("os", {})] }
      ).PackageSpecs.isSome = true ∧
    ((depsolveRun testSolver
      { PackageSetsReq := [("build", { Include := ["make"] }), ("os", {})] }
      ).PackageSpecs.getD []).map Prod.fst = ["build", "os"] ∧
    (depsolveRun testSolver
      { PackageSetsReq := [("os", { Include := ["badpkg"] })] }).PackageSpecs
      = none := by
  have h1 := (depsolve_all_or_nothing testSolver
    { PackageSetsReq := [("build", { Include := ["make"] }), ("os", {})] }).1
    (by decide)
  have h2 := (depsolve_all_or_nothing testSolver
    { PackageSetsReq := [("os", { Include := ["badpkg"] })] }).2.1
    ⟨("os", { Include := ["badpkg"] }), by decide, by decide⟩
  exact ⟨h1.2.1, h1.2.2.1.trans rfl, h2⟩
